import Mathlib

/-!
Verification of the file-virtualization and caching layer of `typst-py`
(`src/world.rs`, `src/package.rs`), shallowly embedded in Lean 4.

Modelling conventions:
* raw file bytes are `List Nat` (each entry one byte);
* decoded text is `List Nat` (each entry one Unicode scalar value);
* `typst::utils::hash128` (a 128-bit SipHash over the load `Result`) is
  modelled by an injective, everywhere-positive encoding `hash128`: the
  idealization of a collision-free content hash whose value never equals
  the `0` sentinel a fresh cell starts with;
* fallible operations return `Except`; effectful operations are written in
  explicit state-passing style, instrumented with counters for load-closure
  invocations, disk reads and network calls so that "no I/O happened" is a
  provable statement.
-/

/-- A package specification `(namespace, name, version)` as in
`typst::syntax::package::PackageSpec`. -/
structure PackageSpec where
  ns : String
  name : String
  version : String
deriving DecidableEq, Repr

/-- A file identifier: an optional package spec plus a root-relative virtual
path (a list of path components), as in `typst::syntax::FileId`.  `fake`
marks ids created with `FileId::new_fake` (detached in-memory ids). -/
structure FileId where
  pkg : Option PackageSpec
  vpath : List String
  fake : Bool
deriving DecidableEq, Repr

/-- Package resolution errors, as in `typst::diag::PackageError`
(payload messages dropped). -/
inductive PackageError where
  | notFound (spec : PackageSpec)
  | networkFailed
  | malformedArchive
deriving DecidableEq, Repr

/-- File access errors, as in `typst::diag::FileError`. -/
inductive FileError where
  | notFound (path : List String)
  | accessDenied
  | isDirectory
  | invalidUtf8
  | other
  | packageError (e : PackageError)
deriving DecidableEq, Repr

deriving instance DecidableEq for Except

/-- Injective encoding of a byte/scalar list into `Nat` (via `Nat.pair`),
used to build the content-hash model. -/
def encodeNatList : List Nat → Nat
  | [] => 0
  | a :: l => Nat.pair a (encodeNatList l) + 1

/-- Encoding of a string for the content-hash model. -/
def encodeString (s : String) : Nat :=
  encodeNatList (s.toList.map Char.toNat)

/-- Encoding of a path for the content-hash model. -/
def encodePath (p : List String) : Nat :=
  encodeNatList (p.map encodeString)

/-- Encoding of a `PackageError` for the content-hash model. -/
def encodePackageError : PackageError → Nat
  | .notFound spec =>
      Nat.pair 0 (Nat.pair (encodeString spec.ns)
        (Nat.pair (encodeString spec.name) (encodeString spec.version)))
  | .networkFailed => Nat.pair 1 0
  | .malformedArchive => Nat.pair 2 0

/-- Encoding of a `FileError` for the content-hash model. -/
def encodeFileError : FileError → Nat
  | .notFound p => Nat.pair 0 (encodePath p)
  | .accessDenied => Nat.pair 1 0
  | .isDirectory => Nat.pair 2 0
  | .invalidUtf8 => Nat.pair 3 0
  | .other => Nat.pair 4 0
  | .packageError e => Nat.pair 5 (encodePackageError e)

/-- Model of `typst::utils::hash128` applied to a raw-load
`FileResult<Vec<u8>>`: an injective encoding into `Nat`, always positive
(idealizing a collision-free 128-bit content hash that never collides with
the `0` a fresh `SlotCell` starts with). -/
def hash128 : Except FileError (List Nat) → Nat
  | .error e => 2 * encodeFileError e + 1
  | .ok bs => 2 * encodeNatList bs + 2

/-- Model of `SlotCell<T>` from `src/world.rs`: lazily processed data for a file,
with the processed `data`, the `fingerprint` hash of the raw contents or
access error (`0` initially), and the per-compilation `accessed` flag. -/
structure SlotCell (T : Type) where
  data : Option (Except FileError T)
  fingerprint : Nat
  accessed : Bool
deriving DecidableEq, Repr

/-- Model of `SlotCell::new`: empty cell. -/
def SlotCell.new {T : Type} : SlotCell T :=
  { data := none, fingerprint := 0, accessed := false }

/-- Model of `SlotCell::reset`: mark the cell as not yet accessed for the next
compilation. -/
def SlotCell.reset {T : Type} (c : SlotCell T) : SlotCell T :=
  { c with accessed := false }

/-- Model of `SlotCell::init`: pre-populate the cell with already-processed data.
Note: the source sets `data` and `accessed` only; the fingerprint is left
untouched. -/
def SlotCell.init {T : Type} (c : SlotCell T) (d : T) : SlotCell T :=
  { c with data := some (.ok d), accessed := true }

/-- Model of `SlotCell::get`: the stored contents, if any. -/
def SlotCell.get {T : Type} (c : SlotCell T) : Option (Except FileError T) :=
  c.data

/-- Outcome of one `SlotCell::get_or_init` call: the returned `Result`, the
cell's new state, and counters of how many times the `load` closure and
the `f` transform closure were invoked. -/
structure CellOut (T : Type) where
  result : Except FileError T
  cell : SlotCell T
  loads : Nat
  transforms : Nat
deriving DecidableEq, Repr

/-- The previous successfully computed value of a cell, used as the hint
passed to the transform: `self.data.take().and_then(Result::ok)`. -/
def SlotCell.prevHint {T : Type} (c : SlotCell T) : Option T :=
  match c.data with
  | some (.ok v) => some v
  | _ => none

/-- Tail of `SlotCell::get_or_init` past the fingerprint fast path (see the
doc comment below): run the transform on the previous successful value
(`self.data.take().and_then(Result::ok)`) when the load succeeded, store and
return the new value. -/
def SlotCell.finish {T : Type} (c2 : SlotCell T)
    (result : Except FileError (List Nat))
    (f : List Nat → Option T → Except FileError T) : CellOut T :=
  let prev : Option T := c2.prevHint
  match result with
  | .error e =>
      { result := .error e, cell := { c2 with data := some (.error e) },
        loads := 1, transforms := 0 }
  | .ok bytes =>
      let value := f bytes prev
      { result := value, cell := { c2 with data := some value },
        loads := 1, transforms := 1 }

/-- Slow path of `SlotCell::get_or_init` (the cell was not accessed this
compilation): invoke `load`, hash the `Result`, store the new fingerprint;
if it matches the old one and data exists, yield the old processed data,
otherwise reprocess via `SlotCell.finish`.  `c` already carries
`accessed = true`. -/
def SlotCell.slowPath {T : Type} (c : SlotCell T)
    (result : Except FileError (List Nat))
    (f : List Nat → Option T → Except FileError T) : CellOut T :=
  let fp := hash128 result
  let c2 : SlotCell T := { c with fingerprint := fp }
  match c.data with
  | some d =>
      if c.fingerprint = fp then
        { result := d, cell := c2, loads := 1, transforms := 0 }
      else SlotCell.finish c2 result f
  | none => SlotCell.finish c2 result f

/-- Model of `SlotCell::get_or_init` from `src/world.rs`.  The `mem::replace` on
`accessed` is modelled by setting `accessed := true` on every path; the
first fast path applies when the cell was accessed this compilation and
holds data. -/
def SlotCell.get_or_init {T : Type} (c : SlotCell T)
    (load : Unit → Except FileError (List Nat))
    (f : List Nat → Option T → Except FileError T) : CellOut T :=
  match c.accessed, c.data with
  | true, some d =>
      { result := d, cell := { c with accessed := true },
        loads := 0, transforms := 0 }
  | true, none => SlotCell.slowPath { c with accessed := true } (load ()) f
  | false, _ => SlotCell.slowPath { c with accessed := true } (load ()) f

/-- A cell is `done` for this compilation: accessed and holding data. -/
def SlotCell.done {T : Type} (c : SlotCell T) : Bool :=
  c.accessed && c.data.isSome

theorem gi_fast {T : Type} (c : SlotCell T) (r : Except FileError T)
    (load : Unit → Except FileError (List Nat))
    (f : List Nat → Option T → Except FileError T)
    (ha : c.accessed = true) (hd : c.data = some r) :
    c.get_or_init load f =
      { result := r, cell := c, loads := 0, transforms := 0 } := by
  obtain ⟨data, fp, acc⟩ := c
  simp only at ha hd
  subst ha hd
  rfl

theorem gi_cell_done {T : Type} (c : SlotCell T)
    (load : Unit → Except FileError (List Nat))
    (f : List Nat → Option T → Except FileError T) :
    (c.get_or_init load f).cell.done = true := by
  obtain ⟨data, fp, acc⟩ := c
  cases acc <;> cases data <;>
    simp only [SlotCell.get_or_init, SlotCell.slowPath, SlotCell.finish,
      SlotCell.done] <;>
    (try split) <;>
    (try split) <;>
    simp [SlotCell.finish, SlotCell.done]

theorem gi_loads_not_done {T : Type} (c : SlotCell T)
    (load : Unit → Except FileError (List Nat))
    (f : List Nat → Option T → Except FileError T)
    (h : c.done = false) :
    (c.get_or_init load f).loads = 1 := by
  obtain ⟨data, fp, acc⟩ := c
  cases acc <;> cases data <;>
    simp only [SlotCell.done, Option.isSome, Bool.and_eq_false_iff] at h <;>
    simp only [SlotCell.get_or_init, SlotCell.slowPath, SlotCell.finish] <;>
    (try split) <;>
    (try split) <;>
    simp_all [SlotCell.finish]

theorem gi_of_done {T : Type} (c : SlotCell T)
    (load : Unit → Except FileError (List Nat))
    (f : List Nat → Option T → Except FileError T)
    (h : c.done = true) :
    (c.get_or_init load f).loads = 0 ∧ (c.get_or_init load f).cell = c := by
  have h' := h
  simp only [SlotCell.done, Bool.and_eq_true, Option.isSome_iff_exists] at h'
  obtain ⟨ha, r, hr⟩ := h'
  rw [gi_fast c r load f ha hr]
  exact ⟨rfl, rfl⟩

/-- C1: if a `SlotCell` was already marked accessed in the current
compilation and holds stored data, `get_or_init` returns the stored
`Result` (cloned) without invoking the `load` closure (and hence without
touching the backing store); the cell is left unchanged. -/
theorem slotcell_repeat_lookup_same_epoch {T : Type} (c : SlotCell T)
    (r : Except FileError T)
    (load : Unit → Except FileError (List Nat))
    (f : List Nat → Option T → Except FileError T)
    (ha : c.accessed = true) (hd : c.data = some r) :
    (c.get_or_init load f).result = r ∧
    (c.get_or_init load f).loads = 0 ∧
    (c.get_or_init load f).cell = c := by
  rw [gi_fast c r load f ha hd]
  exact ⟨rfl, rfl, rfl⟩

theorem slotcell_repeat_lookup_same_epoch_witness :
    (⟨some (.ok [1, 2]), 5, true⟩ : SlotCell (List Nat)).accessed = true ∧
    ((⟨some (.ok [1, 2]), 5, true⟩ : SlotCell (List Nat)).get_or_init
        (fun _ => .ok [9]) (fun bs _ => .ok bs)).result = .ok [1, 2] ∧
    ((⟨some (.ok [1, 2]), 5, true⟩ : SlotCell (List Nat)).get_or_init
        (fun _ => .ok [9]) (fun bs _ => .ok bs)).loads = 0 := by
  refine ⟨rfl, ?_, ?_⟩
  · exact (slotcell_repeat_lookup_same_epoch _ _ _ _ rfl rfl).1
  · exact (slotcell_repeat_lookup_same_epoch
      (⟨some (.ok [1, 2]), 5, true⟩ : SlotCell (List Nat)) (.ok [1, 2])
      (fun _ => .ok [9]) (fun bs _ => .ok bs) rfl rfl).2.1

/-- C2: on a cell not yet accessed this compilation, if the fingerprint of
the freshly loaded `Result` equals the stored fingerprint and stored data
exists, `get_or_init` returns the previously stored processed `Result`
without invoking the transform, and marks the cell accessed (the load ran
once). -/
theorem slotcell_fingerprint_fast_path {T : Type} (c : SlotCell T)
    (r : Except FileError T)
    (load : Unit → Except FileError (List Nat))
    (f : List Nat → Option T → Except FileError T)
    (ha : c.accessed = false) (hd : c.data = some r)
    (hfp : hash128 (load ()) = c.fingerprint) :
    (c.get_or_init load f).result = r ∧
    (c.get_or_init load f).transforms = 0 ∧
    (c.get_or_init load f).cell.accessed = true ∧
    (c.get_or_init load f).loads = 1 := by
  obtain ⟨data, fp, acc⟩ := c
  simp only at ha hd hfp
  subst ha hd
  simp only [SlotCell.get_or_init, SlotCell.slowPath, hfp]
  simp

theorem slotcell_fingerprint_fast_path_witness :
    (⟨some (.ok [7]), hash128 (.ok [3, 4]), false⟩ :
        SlotCell (List Nat)).accessed = false ∧
    hash128 ((fun _ => (.ok [3, 4] : Except FileError (List Nat))) ()) =
      hash128 (.ok [3, 4]) ∧
    ((⟨some (.ok [7]), hash128 (.ok [3, 4]), false⟩ :
        SlotCell (List Nat)).get_or_init
      (fun _ => .ok [3, 4]) (fun bs _ => .ok bs)).result = .ok [7] ∧
    ((⟨some (.ok [7]), hash128 (.ok [3, 4]), false⟩ :
        SlotCell (List Nat)).get_or_init
      (fun _ => .ok [3, 4]) (fun bs _ => .ok bs)).transforms = 0 := by
  refine ⟨rfl, rfl, ?_, ?_⟩
  · exact (slotcell_fingerprint_fast_path _ _ _ _ rfl rfl rfl).1
  · exact (slotcell_fingerprint_fast_path
      (⟨some (.ok [7]), hash128 (.ok [3, 4]), false⟩ : SlotCell (List Nat))
      (.ok [7]) (fun _ => .ok [3, 4]) (fun bs _ => .ok bs) rfl rfl rfl).2.1

theorem gi_slow {T : Type} (c : SlotCell T)
    (load : Unit → Except FileError (List Nat))
    (f : List Nat → Option T → Except FileError T)
    (h : c.done = false) :
    c.get_or_init load f =
      SlotCell.slowPath { c with accessed := true } (load ()) f := by
  obtain ⟨data, fp, acc⟩ := c
  cases acc <;> cases data <;> simp_all [SlotCell.done, SlotCell.get_or_init]

theorem slowPath_fingerprint {T : Type} (c : SlotCell T)
    (result : Except FileError (List Nat))
    (f : List Nat → Option T → Except FileError T) :
    (SlotCell.slowPath c result f).cell.fingerprint = hash128 result := by
  obtain ⟨data, fp, acc⟩ := c
  cases data <;>
    simp only [SlotCell.slowPath, SlotCell.finish] <;>
    (try split) <;>
    (try split) <;>
    rfl

theorem slowPath_mismatch {T : Type} (c : SlotCell T)
    (result : Except FileError (List Nat))
    (f : List Nat → Option T → Except FileError T)
    (hfp : c.fingerprint ≠ hash128 result) :
    SlotCell.slowPath c result f =
      SlotCell.finish { c with fingerprint := hash128 result } result f := by
  obtain ⟨data, fp, acc⟩ := c
  cases data <;> simp_all [SlotCell.slowPath]

theorem finish_error {T : Type} (c2 : SlotCell T) (e : FileError)
    (f : List Nat → Option T → Except FileError T) :
    SlotCell.finish c2 (.error e) f =
      { result := .error e, cell := { c2 with data := some (.error e) },
        loads := 1, transforms := 0 } := rfl

theorem finish_ok {T : Type} (c2 : SlotCell T) (bs : List Nat)
    (f : List Nat → Option T → Except FileError T) :
    SlotCell.finish c2 (.ok bs) f =
      { result := f bs c2.prevHint,
        cell := { c2 with data := some (f bs c2.prevHint) },
        loads := 1, transforms := 1 } := rfl

/-- C6: errors from the load step or the transform step are stored in the
cell and returned as ordinary values; after any call that ran the load, the
stored fingerprint equals the hash of that raw-load `Result` (success or
failure), and a call that did not run the load leaves it unchanged; a
repeated query in the same epoch returns the same stored error without
retrying the load. -/
theorem slotcell_errors_are_values {T : Type} (c : SlotCell T)
    (load load2 : Unit → Except FileError (List Nat))
    (f f2 : List Nat → Option T → Except FileError T)
    (e : FileError) (bs : List Nat) :
    (c.accessed = false → c.fingerprint ≠ hash128 (load ()) →
      ((load () = .error e →
          (c.get_or_init load f).result = .error e ∧
          (c.get_or_init load f).cell.data = some (.error e) ∧
          ((c.get_or_init load f).cell.get_or_init load2 f2).result =
            .error e ∧
          ((c.get_or_init load f).cell.get_or_init load2 f2).loads = 0) ∧
        (load () = .ok bs → f bs c.prevHint = .error e →
          (c.get_or_init load f).result = .error e ∧
          (c.get_or_init load f).cell.data = some (.error e)))) ∧
    (c.done = false →
      (c.get_or_init load f).cell.fingerprint = hash128 (load ())) ∧
    (c.done = true →
      (c.get_or_init load f).cell.fingerprint = c.fingerprint ∧
      (c.get_or_init load f).loads = 0) := by
  refine ⟨?_, ?_, ?_⟩
  · intro ha hfp
    have hdone : c.done = false := by simp [SlotCell.done, ha]
    have hslow := gi_slow c load f hdone
    have hfp' : ({ c with accessed := true } : SlotCell T).fingerprint ≠
        hash128 (load ()) := hfp
    constructor
    · intro he
      rw [hslow, slowPath_mismatch _ _ _ hfp', he, finish_error]
      exact ⟨rfl, rfl, rfl, rfl⟩
    · intro hok htr
      rw [hslow, slowPath_mismatch _ _ _ hfp', hok, finish_ok]
      exact ⟨htr, congrArg some htr⟩
  · intro hdone
    rw [gi_slow c load f hdone]
    exact slowPath_fingerprint _ _ _
  · intro hdone
    obtain ⟨hl, hc⟩ := gi_of_done c load f hdone
    rw [hc, hl]
    exact ⟨rfl, rfl⟩

theorem slotcell_errors_are_values_witness :
    ((SlotCell.new : SlotCell (List Nat)).get_or_init
        (fun _ => .error .accessDenied) (fun b _ => .ok b)).result =
      .error .accessDenied ∧
    (((SlotCell.new : SlotCell (List Nat)).get_or_init
        (fun _ => .error .accessDenied) (fun b _ => .ok b)).cell.get_or_init
        (fun _ => .ok [1]) (fun b _ => .ok b)).loads = 0 ∧
    ((SlotCell.new : SlotCell (List Nat)).get_or_init
        (fun _ => .error .accessDenied) (fun b _ => .ok b)).cell.fingerprint =
      hash128 (.error .accessDenied) := by
  have h := slotcell_errors_are_values (SlotCell.new : SlotCell (List Nat))
    (fun _ => .error .accessDenied) (fun _ => .ok [1])
    (fun b _ => .ok b) (fun b _ => .ok b) .accessDenied []
  obtain ⟨h1, h2, _⟩ := h
  have ha := (h1 rfl (by decide)).1 rfl
  exact ⟨ha.1, ha.2.2.2, h2 rfl⟩

/-- One step of lexical virtual-path resolution.
Modelled from the spec: `VirtualPath::resolve` lives in the external
`typst` crate, not in this repository; the spec requires that "resolution
against a concrete root directory must reject results that escape the
root".  `..` pops one component and fails when the result would be shorter
than the root; `.` and empty components are skipped; normal components are
pushed. -/
def resolveGo (rootLen : Nat) : List String → List String → Option (List String)
  | out, [] => some out
  | out, comp :: rest =>
    if comp = ".." then
      let out2 := out.dropLast
      if out2.length < rootLen then none else resolveGo rootLen out2 rest
    else if comp = "." ∨ comp = "" then resolveGo rootLen out rest
    else resolveGo rootLen (out ++ [comp]) rest

/-- Modelled from the spec: resolution of a virtual path against a concrete
root directory, rejecting escapes (`VirtualPath::resolve` of the external
`typst` crate). -/
def resolve (vpath : List String) (root : List String) :
    Option (List String) :=
  resolveGo root.length root vpath

/-- Model of `system_path` from `src/world.rs`: if the id names a package, prepare
that package and use its directory as the root; then resolve the virtual
path against the root, answering `AccessDenied` when it escapes.
`prep` abstracts `PackageStorage::prepare_package` of the external
`typst_kit` crate. -/
def system_path (root : List String) (id : FileId)
    (prep : PackageSpec → Except PackageError (List String)) :
    Except FileError (List String) :=
  let effRoot : Except FileError (List String) :=
    match id.pkg with
    | some spec =>
        match prep spec with
        | .ok buf => .ok buf
        | .error e => .error (.packageError e)
    | none => .ok root
  match effRoot with
  | .error e => .error e
  | .ok r =>
      match resolve id.vpath r with
      | some p => .ok p
      | none => .error .accessDenied

/-- What the filesystem holds at one path. -/
inductive DiskEntry where
  | missing
  | directory
  | file (bytes : List Nat)
deriving DecidableEq, Repr

/-- Model of `read_from_disk` from `src/world.rs`: error if the metadata lookup
fails (file missing) or the path is a directory, else the file's bytes. -/
def read_from_disk (path : List String) (entry : DiskEntry) :
    Except FileError (List Nat) :=
  match entry with
  | .missing => .error (.notFound path)
  | .directory => .error .isDirectory
  | .file bytes => .ok bytes

/-- Model of `read` from `src/world.rs`, instrumented: resolve the system path, then
read from disk; the second component counts how many times the disk-read
step (`read_from_disk`, i.e. any filesystem syscall) was reached. -/
def readT (root : List String) (id : FileId)
    (prep : PackageSpec → Except PackageError (List String))
    (disk : List String → DiskEntry) :
    Except FileError (List Nat) × Nat :=
  match system_path root id prep with
  | .error e => (.error e, 0)
  | .ok p => (read_from_disk p (disk p), 1)

/-- The result of `read` from `src/world.rs`. -/
def read (root : List String) (id : FileId)
    (prep : PackageSpec → Except PackageError (List String))
    (disk : List String → DiskEntry) : Except FileError (List Nat) :=
  (readT root id prep disk).1

/-- A UTF-8 continuation byte (`0x80..0xbf`). -/
def isCont (b : Nat) : Bool := 0x80 ≤ b && b ≤ 0xbf

/-- UTF-8 decoding of a byte list into Unicode scalar values, with the
validation performed by Rust's `std::str::from_utf8` (rejecting overlong
encodings, surrogates and values above `0x10FFFF`); `none` on invalid
input. -/
def utf8Decode : List Nat → Option (List Nat)
  | [] => some []
  | b :: rest =>
    if b ≤ 0x7f then (utf8Decode rest).map (fun t => b :: t)
    else
      match rest with
      | [] => none
      | b2 :: rest2 =>
        if 0xc2 ≤ b ∧ b ≤ 0xdf then
          if isCont b2 then
            (utf8Decode rest2).map
              (fun t => ((b - 0xc0) * 0x40 + (b2 - 0x80)) :: t)
          else none
        else
          match rest2 with
          | [] => none
          | b3 :: rest3 =>
            if (b = 0xe0 ∧ 0xa0 ≤ b2 ∧ b2 ≤ 0xbf) ∨
                (0xe1 ≤ b ∧ b ≤ 0xec ∧ isCont b2 = true) ∨
                (b = 0xed ∧ 0x80 ≤ b2 ∧ b2 ≤ 0x9f) ∨
                (0xee ≤ b ∧ b ≤ 0xef ∧ isCont b2 = true) then
              if isCont b3 then
                (utf8Decode rest3).map
                  (fun t => ((b - 0xe0) * 0x1000 + (b2 - 0x80) * 0x40 +
                    (b3 - 0x80)) :: t)
              else none
            else
              match rest3 with
              | [] => none
              | b4 :: rest4 =>
                if (b = 0xf0 ∧ 0x90 ≤ b2 ∧ b2 ≤ 0xbf) ∨
                    (0xf1 ≤ b ∧ b ≤ 0xf3 ∧ isCont b2 = true) ∨
                    (b = 0xf4 ∧ 0x80 ≤ b2 ∧ b2 ≤ 0x8f) then
                  if isCont b3 && isCont b4 then
                    (utf8Decode rest4).map
                      (fun t => ((b - 0xf0) * 0x40000 +
                        (b2 - 0x80) * 0x1000 + (b3 - 0x80) * 0x40 +
                        (b4 - 0x80)) :: t)
                  else none
                else none

/-- Model of `buf.strip_prefix(b"\xef\xbb\xbf").unwrap_or(buf)`: remove a UTF-8 BOM
if present. -/
def stripBom : List Nat → List Nat
  | 0xef :: 0xbb :: 0xbf :: rest => rest
  | bs => bs

/-- Model of `decode_utf8` from `src/world.rs`: decode UTF-8 after removing an
optional BOM; the `Utf8Error` is converted into `FileError::InvalidUtf8`. -/
def decode_utf8 (buf : List Nat) : Except FileError (List Nat) :=
  match utf8Decode (stripBom buf) with
  | some text => .ok text
  | none => .error .invalidUtf8

/-- Model of `typst::syntax::Source` (external crate), modelled as the owned text
buffer of one `FileId` plus a generation counter: `Source::new` starts at
generation `0`, and the in-place `replace` keeps the same logical source
but bumps the generation, distinguishing "text replaced in the previous
buffer" from "brand-new buffer". -/
structure Source where
  id : FileId
  text : List Nat
  gen : Nat
deriving DecidableEq, Repr

/-- Model of `Source::new`. -/
def Source.new (id : FileId) (text : List Nat) : Source :=
  { id := id, text := text, gen := 0 }

/-- Model of `Source::replace`: replace the full text in place (same logical source,
next generation). -/
def Source.replace (s : Source) (text : List Nat) : Source :=
  { id := s.id, text := text, gen := s.gen + 1 }

/-- Model of `Bytes::new` (external crate): wrap raw bytes; the identity on byte
lists in this model. -/
def bytesNew (b : List Nat) : List Nat := b

/-- Model of `FileSlot` from `src/world.rs`: canonical data for one file id, with
the decoded-source cell and the raw-bytes cell.  The Rust fields are named
`source` and `file`; they are `sourceCell`/`fileCell` here because the
accessor functions of the same names exist alongside them. -/
structure FileSlot where
  id : FileId
  sourceCell : SlotCell Source
  fileCell : SlotCell (List Nat)
deriving DecidableEq, Repr

/-- Model of `FileSlot::new`. -/
def FileSlot.new (id : FileId) : FileSlot :=
  { id := id, fileCell := SlotCell.new, sourceCell := SlotCell.new }

/-- Model of `FileSlot::reset`: mark both cells as not yet accessed. -/
def FileSlot.reset (s : FileSlot) : FileSlot :=
  { id := s.id, sourceCell := s.sourceCell.reset, fileCell := s.fileCell.reset }

/-- The transform closure of `FileSlot::source`: decode UTF-8 (stripping an
optional BOM), then replace the previous `Source`'s text in place if one
exists, else construct a new `Source`. -/
def sourceTransform (id : FileId) (data : List Nat) (prev : Option Source) :
    Except FileError Source :=
  match decode_utf8 data with
  | .error e => .error e
  | .ok text =>
      match prev with
      | some p => .ok (p.replace text)
      | none => .ok (Source.new id text)

/-- Outcome of one `FileSlot::source` / `FileSlot::file` call: the returned
`Result`, the slot's new state, the load/transform invocation counters and
the number of times the disk-read step was reached. -/
structure SlotOut (T : Type) where
  result : Except FileError T
  slot : FileSlot
  loads : Nat
  transforms : Nat
  diskReads : Nat
deriving DecidableEq, Repr

/-- Model of `FileSlot::source` from `src/world.rs`: drive the source cell with
`load = read(id, root, packages)` and the decode/replace transform. -/
def FileSlot.source (slot : FileSlot) (root : List String)
    (prep : PackageSpec → Except PackageError (List String))
    (disk : List String → DiskEntry) : SlotOut Source :=
  let o := slot.sourceCell.get_or_init
    (fun _ => read root slot.id prep disk) (sourceTransform slot.id)
  { result := o.result, slot := { slot with sourceCell := o.cell },
    loads := o.loads, transforms := o.transforms,
    diskReads := o.loads * (readT root slot.id prep disk).2 }

/-- Model of `FileSlot::file` from `src/world.rs`: drive the bytes cell with the
same load and a pass-through transform wrapping the raw bytes. -/
def FileSlot.file (slot : FileSlot) (root : List String)
    (prep : PackageSpec → Except PackageError (List String))
    (disk : List String → DiskEntry) : SlotOut (List Nat) :=
  let o := slot.fileCell.get_or_init
    (fun _ => read root slot.id prep disk)
    (fun data _ => .ok (bytesNew data))
  { result := o.result, slot := { slot with fileCell := o.cell },
    loads := o.loads, transforms := o.transforms,
    diskReads := o.loads * (readT root slot.id prep disk).2 }

/-- C4: for a project-file id whose virtual path resolves outside the
configured root, `system_path` answers `AccessDenied`, `source` and `file`
fail with `AccessDenied`, and the disk-read step is never reached. -/
theorem sandbox_denies_escapes (root : List String) (id : FileId)
    (prep : PackageSpec → Except PackageError (List String))
    (disk : List String → DiskEntry)
    (hpkg : id.pkg = none) (hres : resolve id.vpath root = none) :
    system_path root id prep = .error .accessDenied ∧
    read root id prep disk = .error .accessDenied ∧
    (readT root id prep disk).2 = 0 ∧
    ((FileSlot.new id).source root prep disk).result = .error .accessDenied ∧
    ((FileSlot.new id).source root prep disk).diskReads = 0 ∧
    ((FileSlot.new id).file root prep disk).result = .error .accessDenied ∧
    ((FileSlot.new id).file root prep disk).diskReads = 0 := by
  have hsys : system_path root id prep = .error .accessDenied := by
    simp [system_path, hpkg, hres]
  have hrt : readT root id prep disk = (.error .accessDenied, 0) := by
    simp [readT, hsys]
  have hread : read root id prep disk = .error .accessDenied := by
    show (readT root id prep disk).1 = _
    rw [hrt]
  refine ⟨hsys, hread, by simp [hrt], ?_, ?_, ?_, ?_⟩ <;>
    simp [FileSlot.source, FileSlot.file, FileSlot.new, SlotCell.new,
      SlotCell.get_or_init, SlotCell.slowPath, SlotCell.finish, hread, hrt]

theorem sandbox_denies_escapes_witness :
    (⟨none, [".."], false⟩ : FileId).pkg = none ∧
    resolve (⟨none, [".."], false⟩ : FileId).vpath ["proj"] = none ∧
    read ["proj"] ⟨none, [".."], false⟩ (fun _ => .error .networkFailed)
      (fun _ => .file [97]) = .error .accessDenied ∧
    (readT ["proj"] ⟨none, [".."], false⟩ (fun _ => .error .networkFailed)
      (fun _ => .file [97])).2 = 0 ∧
    ((FileSlot.new ⟨none, [".."], false⟩).source ["proj"]
      (fun _ => .error .networkFailed) (fun _ => .file [97])).result =
      .error .accessDenied := by
  have h := sandbox_denies_escapes ["proj"] ⟨none, [".."], false⟩
    (fun _ => .error .networkFailed) (fun _ => .file [97]) rfl (by decide)
  exact ⟨rfl, by decide, h.2.1, h.2.2.1, h.2.2.2.1⟩

/-- C8: the `source` transform decodes bytes as UTF-8 after stripping an
optional BOM; the first successful load constructs a new `Source` for the
slot's id (generation 0), and a later load with different content replaces
the previous `Source`'s text in place (same id, next generation) instead of
constructing a brand-new `Source`. -/
theorem source_decode_and_inplace_replace (root : List String) (id : FileId)
    (prep : PackageSpec → Except PackageError (List String))
    (disk1 disk2 : List String → DiskEntry) (b1 b2 t1 t2 : List Nat)
    (h1 : read root id prep disk1 = .ok b1)
    (h2 : read root id prep disk2 = .ok b2)
    (hd1 : utf8Decode (stripBom b1) = some t1)
    (hd2 : utf8Decode (stripBom b2) = some t2)
    (hneq : hash128 (.ok b1) ≠ hash128 (.ok b2)) :
    (∀ bs, stripBom (0xef :: 0xbb :: 0xbf :: bs) = bs) ∧
    decode_utf8 b1 = .ok t1 ∧
    ((FileSlot.new id).source root prep disk1).result =
      .ok (Source.new id t1) ∧
    ((((FileSlot.new id).source root prep disk1).slot.reset).source
        root prep disk2).result = .ok ((Source.new id t1).replace t2) ∧
    ((((FileSlot.new id).source root prep disk1).slot.reset).source
        root prep disk2).result = .ok { id := id, text := t2, gen := 1 } := by
  have hbom : ∀ bs, stripBom (0xef :: 0xbb :: 0xbf :: bs) = bs :=
    fun bs => rfl
  have hdec1 : decode_utf8 b1 = .ok t1 := by simp [decode_utf8, hd1]
  have hdec2 : decode_utf8 b2 = .ok t2 := by simp [decode_utf8, hd2]
  have first : ((FileSlot.new id).source root prep disk1) =
      { result := .ok (Source.new id t1),
        slot := ⟨id,
          ⟨some (.ok (Source.new id t1)), hash128 (.ok b1), true⟩,
          SlotCell.new⟩,
        loads := 1, transforms := 1,
        diskReads := (readT root id prep disk1).2 } := by
    simp [FileSlot.source, FileSlot.new, SlotCell.new, SlotCell.get_or_init,
      SlotCell.slowPath, SlotCell.finish, SlotCell.prevHint, sourceTransform,
      h1, hdec1]
  refine ⟨hbom, hdec1, by rw [first], ?_, ?_⟩ <;>
  · rw [first]
    simp [FileSlot.source, FileSlot.reset, SlotCell.reset, SlotCell.new,
      SlotCell.get_or_init, SlotCell.slowPath, SlotCell.finish,
      SlotCell.prevHint, sourceTransform, Source.replace, Source.new,
      h2, hdec2, hneq]

theorem source_decode_and_inplace_replace_witness :
    read ["r"] ⟨none, ["m"], false⟩ (fun _ => .error .networkFailed)
      (fun _ => .file [0xef, 0xbb, 0xbf, 0x61]) =
      .ok [0xef, 0xbb, 0xbf, 0x61] ∧
    hash128 (.ok [0xef, 0xbb, 0xbf, 0x61]) ≠ hash128 (.ok [0x62]) ∧
    ((FileSlot.new ⟨none, ["m"], false⟩).source ["r"]
      (fun _ => .error .networkFailed)
      (fun _ => .file [0xef, 0xbb, 0xbf, 0x61])).result =
      .ok (Source.new ⟨none, ["m"], false⟩ [0x61]) ∧
    ((((FileSlot.new ⟨none, ["m"], false⟩).source ["r"]
      (fun _ => .error .networkFailed)
      (fun _ => .file [0xef, 0xbb, 0xbf, 0x61])).slot.reset).source ["r"]
      (fun _ => .error .networkFailed)
      (fun _ => .file [0x62])).result =
      .ok { id := ⟨none, ["m"], false⟩, text := [0x62], gen := 1 } := by
  have h := source_decode_and_inplace_replace ["r"] ⟨none, ["m"], false⟩
    (fun _ => .error .networkFailed)
    (fun _ => .file [0xef, 0xbb, 0xbf, 0x61]) (fun _ => .file [0x62])
    [0xef, 0xbb, 0xbf, 0x61] [0x62] [0x61] [0x62]
    (by decide) (by decide) (by decide) (by decide) (by decide)
  exact ⟨by decide, by decide, h.2.2.1, h.2.2.2.2⟩

/-- The two file-access operations of the world surface. -/
inductive FileCall where
  | sourceCall
  | fileCall
deriving DecidableEq, Repr

/-- Run one `source`/`file` call on a slot, returning the new slot and the
number of backing-store load invocations it performed. -/
def runCall (root : List String)
    (prep : PackageSpec → Except PackageError (List String))
    (disk : List String → DiskEntry) (slot : FileSlot) :
    FileCall → FileSlot × Nat
  | .sourceCall =>
      ((slot.source root prep disk).slot, (slot.source root prep disk).loads)
  | .fileCall =>
      ((slot.file root prep disk).slot, (slot.file root prep disk).loads)

/-- Run a sequence of `source`/`file` calls on a slot (same compilation
epoch: no reset in between), summing the load invocations. -/
def runCalls (root : List String)
    (prep : PackageSpec → Except PackageError (List String))
    (disk : List String → DiskEntry) (slot : FileSlot) :
    List FileCall → FileSlot × Nat
  | [] => (slot, 0)
  | c :: cs =>
      let r1 := runCall root prep disk slot c
      let r2 := runCalls root prep disk r1.1 cs
      (r2.1, r1.2 + r2.2)

theorem source_step (slot : FileSlot) (root : List String)
    (prep : PackageSpec → Except PackageError (List String))
    (disk : List String → DiskEntry) :
    (slot.source root prep disk).slot.sourceCell.done = true ∧
    (slot.source root prep disk).slot.fileCell = slot.fileCell ∧
    (slot.source root prep disk).loads =
      (if slot.sourceCell.done = true then 0 else 1) := by
  refine ⟨gi_cell_done _ _ _, rfl, ?_⟩
  by_cases h : slot.sourceCell.done = true
  · rw [if_pos h]
    exact (gi_of_done _ _ _ h).1
  · rw [if_neg h]
    exact gi_loads_not_done _ _ _ (by revert h; cases slot.sourceCell.done <;> simp)

theorem file_step (slot : FileSlot) (root : List String)
    (prep : PackageSpec → Except PackageError (List String))
    (disk : List String → DiskEntry) :
    (slot.file root prep disk).slot.fileCell.done = true ∧
    (slot.file root prep disk).slot.sourceCell = slot.sourceCell ∧
    (slot.file root prep disk).loads =
      (if slot.fileCell.done = true then 0 else 1) := by
  refine ⟨gi_cell_done _ _ _, rfl, ?_⟩
  by_cases h : slot.fileCell.done = true
  · rw [if_pos h]
    exact (gi_of_done _ _ _ h).1
  · rw [if_neg h]
    exact gi_loads_not_done _ _ _ (by revert h; cases slot.fileCell.done <;> simp)

/-- Model of `chrono::DateTime<Local>` (external crate), modelled as a UTC timestamp
in seconds plus the local-timezone offset in seconds. -/
structure DateTime where
  utcSecs : Int
  tzOffsetSecs : Int
deriving DecidableEq, Repr

/-- Model of `DateTime::naive_local`: the local wall-clock timestamp in seconds. -/
def naiveLocal (d : DateTime) : Int := d.utcSecs + d.tzOffsetSecs

/-- Model of `DateTime::naive_utc`: the UTC timestamp in seconds. -/
def naiveUtc (d : DateTime) : Int := d.utcSecs

/-- Civil calendar date from a count of days since 1970-01-01 (proleptic
Gregorian; Hinnant's algorithm with C-style truncating division, as used by
the date handling of the external `chrono` crate). -/
def civilFromDays (z0 : Int) : Int × Nat × Nat :=
  let z := z0 + 719468
  let era := (if 0 ≤ z then z else z - 146096).tdiv 146097
  let doe := z - era * 146097
  let yoe := (doe - doe.tdiv 1460 + doe.tdiv 36524 - doe.tdiv 146096).tdiv 365
  let y := yoe + era * 400
  let doy := doe - (365 * yoe + yoe.tdiv 4 - yoe.tdiv 100)
  let mp := (5 * doy + 2).tdiv 153
  let d := doy - (153 * mp + 2).tdiv 5 + 1
  let m := if mp < 10 then mp + 3 else mp - 9
  (y + (if m ≤ 2 then 1 else 0), m.toNat, d.toNat)

/-- Year/month/day of a naive timestamp in seconds (floor division into
days, as `chrono` does). -/
def ymdOfNaive (secs : Int) : Int × Nat × Nat :=
  civilFromDays (secs.fdiv 86400)

/-- Model of `typst::foundations::Datetime` restricted to its `Date` variant
(external crate): the result of `Datetime::from_ymd`. -/
structure Datetime where
  year : Int
  month : Nat
  day : Nat
deriving DecidableEq, Repr

/-- Model of `Datetime::from_ymd` (external crate): `some` only for an in-range
month and day. -/
def datetimeFromYmd (y : Int) (m d : Nat) : Option Datetime :=
  if 1 ≤ m ∧ m ≤ 12 ∧ 1 ≤ d ∧ d ≤ 31 then
    some { year := y, month := m, day := d }
  else none

/-- The pure date computation of `SystemWorld::today` for a given sampled
instant: with no offset use local naive time, with `Some(o)` add `o` hours
to UTC naive time, then build `Datetime::from_ymd`. -/
def todayFromInstant (now : DateTime) (offset : Option Int) : Option Datetime :=
  let naive : Int :=
    match offset with
    | none => naiveLocal now
    | some o => naiveUtc now + 3600 * o
  let ymd := ymdOfNaive naive
  datetimeFromYmd ymd.1 ymd.2.1 ymd.2.2

/-- Model of `SystemWorld` from `src/world.rs`.  `library`, `book` and `fonts` are
opaque tokens (their contents are out of scope); the slot table is an
association list; `packageStorage` abstracts the `typst_kit`
`PackageStorage`; `now` is the `OnceLock` cell for the per-compilation
timestamp. -/
structure SystemWorld where
  workdir : Option (List String)
  root : List String
  main : FileId
  bytesMain : Option FileId
  library : Nat
  book : Nat
  fonts : Nat
  slots : List (FileId × FileSlot)
  packageStorage : PackageSpec → Except PackageError (List String)
  now : Option DateTime

/-- Model of `SystemWorld::reset` from `src/world.rs`: reset every slot and clear
the per-compilation timestamp. -/
def SystemWorld.reset (w : SystemWorld) : SystemWorld :=
  { w with slots := w.slots.map (fun p => (p.1, p.2.reset)), now := none }

/-- Model of `SystemWorld::today` from `src/world.rs`: sample the wall clock into
the once-per-compilation cell on first access (`clock` is the instant
`chrono::Local::now()` would return at this call), then derive the date
from the sampled instant and the offset. -/
def SystemWorld.today (w : SystemWorld) (clock : DateTime)
    (offset : Option Int) : Option Datetime × SystemWorld :=
  let now :=
    match w.now with
    | some t => t
    | none => clock
  (todayFromInstant now offset, { w with now := some now })

/-- Association-list lookup in the slot table. -/
def getSlot : List (FileId × FileSlot) → FileId → Option FileSlot
  | [], _ => none
  | (i, s) :: rest, id => if i = id then some s else getSlot rest id

/-- Association-list update/insert in the slot table, modelling
`HashMap::entry(id).or_insert_with(...)` followed by mutation. -/
def setSlot : List (FileId × FileSlot) → FileId → FileSlot →
    List (FileId × FileSlot)
  | [], id, s => [(id, s)]
  | (i, s0) :: rest, id, s =>
      if i = id then (i, s) :: rest else (i, s0) :: setSlot rest id s

/-- Model of `SystemWorld::slot` driving one `source`/`file` call: look up or
lazily create the `FileSlot`, run the call, store the slot back. -/
def SystemWorld.runOp (w : SystemWorld) (disk : List String → DiskEntry)
    (id : FileId) (c : FileCall) : SystemWorld × Nat :=
  let slot :=
    match getSlot w.slots id with
    | some s => s
    | none => FileSlot.new id
  let r := runCall w.root w.packageStorage disk slot c
  ({ w with slots := setSlot w.slots id r.1 }, r.2)

/-- A sequence of `source`/`file` calls on the world for one id within one
compilation epoch, summing backing-store load invocations. -/
def SystemWorld.runOps (w : SystemWorld) (disk : List String → DiskEntry)
    (id : FileId) : List FileCall → SystemWorld × Nat
  | [] => (w, 0)
  | c :: cs =>
      let r := w.runOp disk id c
      let r2 := r.1.runOps disk id cs
      (r2.1, r.2 + r2.2)

theorem runCalls_loads (root : List String)
    (prep : PackageSpec → Except PackageError (List String))
    (disk : List String → DiskEntry) :
    ∀ (cs : List FileCall) (slot : FileSlot),
    (runCalls root prep disk slot cs).2 =
      (if FileCall.sourceCall ∈ cs ∧ slot.sourceCell.done = false
        then 1 else 0) +
      (if FileCall.fileCall ∈ cs ∧ slot.fileCell.done = false
        then 1 else 0) := by
  intro cs
  induction cs with
  | nil => intro slot; simp [runCalls]
  | cons c cs ih =>
    intro slot
    cases c
    case sourceCall =>
      obtain ⟨hd, hf, hl⟩ := source_step slot root prep disk
      simp only [runCalls, runCall, ih, hd, hf, hl, List.mem_cons]
      by_cases hs : slot.sourceCell.done = true <;>
        by_cases hfi : FileCall.fileCall ∈ cs <;>
        by_cases hfd : slot.fileCell.done = false <;>
        simp_all
    case fileCall =>
      obtain ⟨hd, hf, hl⟩ := file_step slot root prep disk
      simp only [runCalls, runCall, ih, hd, hf, hl, List.mem_cons]
      by_cases hs : slot.fileCell.done = true <;>
        by_cases hfi : FileCall.sourceCall ∈ cs <;>
        by_cases hfd : slot.sourceCell.done = false <;>
        simp_all

theorem getSlot_setSlot (l : List (FileId × FileSlot)) (id : FileId)
    (s : FileSlot) : getSlot (setSlot l id s) id = some s := by
  induction l with
  | nil => simp [setSlot, getSlot]
  | cons p rest ih =>
    obtain ⟨i, s0⟩ := p
    by_cases h : i = id <;> simp [setSlot, getSlot, h, ih]

theorem runOps_loads (disk : List String → DiskEntry) (id : FileId) :
    ∀ (cs : List FileCall) (w : SystemWorld),
    (w.runOps disk id cs).2 =
      (runCalls w.root w.packageStorage disk
        (match getSlot w.slots id with
          | some s => s
          | none => FileSlot.new id) cs).2 := by
  intro cs
  induction cs with
  | nil => intro w; simp [SystemWorld.runOps, runCalls]
  | cons c cs ih =>
    intro w
    simp only [SystemWorld.runOps, runCalls, SystemWorld.runOp]
    rw [ih]
    simp [getSlot_setSlot]

/-- A concrete world with an empty slot table over a one-file project,
used to instantiate the call-counting statements. -/
def exampleWorld : SystemWorld :=
  { workdir := none, root := ["proj"], main := ⟨none, ["main.typ"], false⟩,
    bytesMain := none, library := 0, book := 0, fonts := 0, slots := [],
    packageStorage := fun _ => .error .networkFailed, now := none }

/-- A disk on which every path holds the one-byte file `a`. -/
def exampleDisk : List String → DiskEntry := fun _ => .file [0x61]

/-- C3 (counterexample): on a fresh slot, one `source` call followed by one
`file` call for the same `FileId` — N = 2 calls with no intervening
`reset()` — invokes the backing-store load twice (once per cell), not
exactly once as claimed. -/
theorem single_backing_read_counterexample :
    (exampleWorld.runOps exampleDisk ⟨none, ["main.typ"], false⟩
      [.sourceCall, .fileCall]).2 = 2 ∧
    (exampleWorld.runOps exampleDisk ⟨none, ["main.typ"], false⟩
      [.sourceCall, .fileCall]).2 ≠ 1 := by decide

/-- C3 (amended): for a `FileId` whose slot does not exist yet, any
sequence of N > 1 `source`/`file` calls without an intervening `reset()`
invokes the backing-store load exactly once per accessed cell: once if
only `source` is called, once if only `file` is called, twice when both
are. -/
theorem single_backing_read_per_cell (w : SystemWorld)
    (disk : List String → DiskEntry) (id : FileId) (cs : List FileCall)
    (hfresh : getSlot w.slots id = none) (_hlen : 1 < cs.length) :
    (w.runOps disk id cs).2 =
      (if FileCall.sourceCall ∈ cs then 1 else 0) +
      (if FileCall.fileCall ∈ cs then 1 else 0) := by
  rw [runOps_loads, hfresh, runCalls_loads]
  simp [FileSlot.new, SlotCell.new, SlotCell.done]

theorem single_backing_read_per_cell_witness :
    getSlot exampleWorld.slots ⟨none, ["main.typ"], false⟩ = none ∧
    1 < ([FileCall.sourceCall, FileCall.sourceCall,
      FileCall.sourceCall] : List FileCall).length ∧
    (exampleWorld.runOps exampleDisk ⟨none, ["main.typ"], false⟩
      [.sourceCall, .sourceCall, .sourceCall]).2 = 1 := by
  refine ⟨rfl, by decide, ?_⟩
  have h := single_backing_read_per_cell exampleWorld exampleDisk
    ⟨none, ["main.typ"], false⟩ [.sourceCall, .sourceCall, .sourceCall]
    rfl (by decide)
  simpa using h

/-- C7: within one compilation epoch the wall clock is sampled at most
once, on first access: both `today` calls are computed from the first
call's sampled instant regardless of their offsets and of the clock
advancing in between, and `reset()` clears the sampled instant. -/
theorem today_samples_instant_once (w : SystemWorld) (c1 c2 : DateTime)
    (o1 o2 : Option Int) (h : w.now = none) :
    (w.today c1 o1).1 = todayFromInstant c1 o1 ∧
    (w.today c1 o1).2.now = some c1 ∧
    ((w.today c1 o1).2.today c2 o2).1 = todayFromInstant c1 o2 ∧
    ((w.today c1 o1).2.today c2 o2).2.now = some c1 ∧
    (((w.today c1 o1).2.today c2 o2).2.reset).now = none := by
  simp [SystemWorld.today, SystemWorld.reset, h]

theorem today_samples_instant_once_witness :
    exampleWorld.now = none ∧
    (exampleWorld.today ⟨8640000, 3600⟩ none).1 =
      todayFromInstant ⟨8640000, 3600⟩ none ∧
    ((exampleWorld.today ⟨8640000, 3600⟩ none).2.today
      ⟨17280000, 3600⟩ (some 5)).1 =
      todayFromInstant ⟨8640000, 3600⟩ (some 5) ∧
    ((exampleWorld.today ⟨8640000, 3600⟩ none).2.today
      ⟨17280000, 3600⟩ (some 5)).2.now = some ⟨8640000, 3600⟩ ∧
    todayFromInstant ⟨8640000, 3600⟩ none =
      some { year := 1970, month := 4, day := 11 } := by
  have h := today_samples_instant_once exampleWorld ⟨8640000, 3600⟩
    ⟨17280000, 3600⟩ none (some 5) rfl
  exact ⟨rfl, h.1, h.2.2.1, h.2.2.2.1, by decide⟩

/-- C9: `reset()` clears only the `accessed` flags of both cells of every
slot and the once-per-compilation timestamp; every cell's stored data and
fingerprint, the slot table's entries, the root, the main id, the font
table and the package storage are unchanged. -/
theorem reset_clears_only_epoch_state (w : SystemWorld) (i : FileId)
    (s : FileSlot) (hmem : (i, s) ∈ w.slots) :
    w.reset.workdir = w.workdir ∧
    w.reset.root = w.root ∧
    w.reset.main = w.main ∧
    w.reset.bytesMain = w.bytesMain ∧
    w.reset.library = w.library ∧
    w.reset.book = w.book ∧
    w.reset.fonts = w.fonts ∧
    w.reset.packageStorage = w.packageStorage ∧
    w.reset.now = none ∧
    w.reset.slots.map Prod.fst = w.slots.map Prod.fst ∧
    (i, (⟨s.id,
      ⟨s.sourceCell.data, s.sourceCell.fingerprint, false⟩,
      ⟨s.fileCell.data, s.fileCell.fingerprint, false⟩⟩ : FileSlot)) ∈
      w.reset.slots := by
  refine ⟨rfl, rfl, rfl, rfl, rfl, rfl, rfl, rfl, rfl, ?_, ?_⟩
  · show (w.slots.map (fun p => (p.1, p.2.reset))).map Prod.fst =
      w.slots.map Prod.fst
    rw [List.map_map]
    rfl
  · show _ ∈ w.slots.map (fun p => (p.1, p.2.reset))
    have heq : (fun p : FileId × FileSlot => (p.1, p.2.reset)) (i, s) =
        (i, (⟨s.id,
          ⟨s.sourceCell.data, s.sourceCell.fingerprint, false⟩,
          ⟨s.fileCell.data, s.fileCell.fingerprint, false⟩⟩ : FileSlot)) :=
      rfl
    exact heq ▸ List.mem_map_of_mem _ hmem

theorem reset_clears_only_epoch_state_witness :
    ((⟨none, ["a"], false⟩, FileSlot.new ⟨none, ["a"], false⟩) ∈
      ({ exampleWorld with
        slots := [(⟨none, ["a"], false⟩, FileSlot.new ⟨none, ["a"], false⟩)],
        now := some ⟨5, 0⟩ } : SystemWorld).slots) ∧
    ({ exampleWorld with
        slots := [(⟨none, ["a"], false⟩, FileSlot.new ⟨none, ["a"], false⟩)],
        now := some ⟨5, 0⟩ } : SystemWorld).reset.root = ["proj"] ∧
    ({ exampleWorld with
        slots := [(⟨none, ["a"], false⟩, FileSlot.new ⟨none, ["a"], false⟩)],
        now := some ⟨5, 0⟩ } : SystemWorld).reset.now = none := by
  have h := reset_clears_only_epoch_state
    { exampleWorld with
      slots := [(⟨none, ["a"], false⟩, FileSlot.new ⟨none, ["a"], false⟩)],
      now := some ⟨5, 0⟩ }
    ⟨none, ["a"], false⟩ (FileSlot.new ⟨none, ["a"], false⟩)
    (List.mem_singleton.mpr rfl)
  exact ⟨List.mem_singleton.mpr rfl, h.2.1, h.2.2.2.2.2.2.2.2.1⟩

/-- Model of `FileSlot::from_inline_bytes` from `src/world.rs`: a slot backed by
explicitly provided bytes; decode failure propagates, otherwise both cells
are pre-populated via `SlotCell::init` (the same two `init` calls the
bytes arm of `SystemWorldBuilder::build` and `configure_bytes_input`
perform). -/
def FileSlot.from_inline_bytes (id : FileId) (bytes : List Nat) :
    Except FileError FileSlot :=
  match decode_utf8 bytes with
  | .error e => .error e
  | .ok text =>
      .ok { id := id,
            sourceCell := SlotCell.new.init (Source.new id text),
            fileCell := SlotCell.new.init (bytesNew bytes) }

/-- C10 (counterexample): a slot pre-populated from the in-memory bytes
`"a"` has fingerprint `0` in both cells, not the hash of the pre-populated
content — `SlotCell::init` never writes the fingerprint. -/
theorem inline_bytes_fingerprint_counterexample :
    ∃ slot : FileSlot,
      FileSlot.from_inline_bytes ⟨none, ["<bytes>"], true⟩ [0x61] =
        .ok slot ∧
      slot.fileCell.fingerprint ≠ hash128 (.ok [0x61]) ∧
      slot.sourceCell.fingerprint ≠ hash128 (.ok [0x61]) ∧
      slot.fileCell.fingerprint = 0 := by
  refine ⟨⟨⟨none, ["<bytes>"], true⟩,
    ⟨some (.ok ⟨⟨none, ["<bytes>"], true⟩, [0x61], 0⟩), 0, true⟩,
    ⟨some (.ok [0x61]), 0, true⟩⟩, by decide, by decide, by decide, rfl⟩

/-- C10 (amended): pre-populating a slot from supplied in-memory bytes
marks both cells accessed with the decoded/wrapped data stored, but leaves
each cell's fingerprint at its initial value `0`; it is not set to the
hash of the pre-populated content. -/
theorem inline_bytes_prepopulates (id : FileId) (bytes text : List Nat)
    (h : decode_utf8 bytes = .ok text) :
    FileSlot.from_inline_bytes id bytes =
      .ok { id := id,
            sourceCell := ⟨some (.ok (Source.new id text)), 0, true⟩,
            fileCell := ⟨some (.ok (bytesNew bytes)), 0, true⟩ } := by
  simp [FileSlot.from_inline_bytes, h, SlotCell.init, SlotCell.new]

theorem inline_bytes_prepopulates_witness :
    decode_utf8 [0x61] = .ok [0x61] ∧
    FileSlot.from_inline_bytes ⟨none, ["<bytes>"], true⟩ [0x61] =
      .ok { id := ⟨none, ["<bytes>"], true⟩,
            sourceCell := ⟨some (.ok
              (Source.new ⟨none, ["<bytes>"], true⟩ [0x61])), 0, true⟩,
            fileCell := ⟨some (.ok (bytesNew [0x61])), 0, true⟩ } :=
  ⟨by decide, inline_bytes_prepopulates ⟨none, ["<bytes>"], true⟩ [0x61]
    [0x61] (by decide)⟩

/-- Response of the downloader (`download` in `src/download.rs`, built on
`ureq`): body bytes on success, an HTTP status error, or any other
transport failure. -/
inductive NetResponse where
  | success (data : List Nat)
  | status (code : Nat)
  | transportErr
deriving DecidableEq, Repr

/-- Host environment of the package resolver: the per-user data and cache
directories (`dirs::data_dir` / `dirs::cache_dir`), the network, and
whether a downloaded archive unpacks cleanly. -/
structure PkgEnv where
  dataDir : Option (List String)
  cacheDir : Option (List String)
  net : String → NetResponse
  unpackOk : List Nat → Bool

/-- Mutable world of the package resolver: the set of directories that
exist on disk and a counter of network calls made. -/
structure PkgState where
  dirs : List (List String)
  netCalls : Nat
deriving DecidableEq, Repr

/-- The per-package path `typst/packages/<namespace>/<name>/<version>`. -/
def subdir (spec : PackageSpec) : List String :=
  ["typst", "packages", spec.ns, spec.name, spec.version]

/-- The package archive URL
`https://packages.typst.org/preview/<name>-<version>.tar.gz`. -/
def pkgUrl (spec : PackageSpec) : String :=
  "https://packages.typst.org/preview/" ++ spec.name ++ "-" ++
    spec.version ++ ".tar.gz"

/-- Model of `download_package` from `src/package.rs`: download the archive (one
network call), mapping HTTP 404 to `NotFound`, any other transport failure
to `NetworkFailed`; unpack into `package_dir`, and on unpack failure
remove the partially-written directory (`fs::remove_dir_all`) before
returning `MalformedArchive`. -/
def download_package (env : PkgEnv) (spec : PackageSpec)
    (package_dir : List String) (st : PkgState) :
    Except PackageError Unit × PkgState :=
  let st1 : PkgState := { st with netCalls := st.netCalls + 1 }
  match env.net (pkgUrl spec) with
  | .status code =>
      if code = 404 then (.error (.notFound spec), st1)
      else (.error .networkFailed, st1)
  | .transportErr => (.error .networkFailed, st1)
  | .success data =>
      let written := package_dir :: st1.dirs
      if env.unpackOk data then (.ok (), { st1 with dirs := written })
      else (.error .malformedArchive,
        { st1 with dirs := written.filter (fun d => d ≠ package_dir) })

/-- The cache-directory phase of `prepare_package` from `src/package.rs`:
inside `if let Some(cache_dir)`, download on demand only for the `preview`
namespace when the directory does not exist yet, then return the directory
if it exists; fall through to `NotFound`. -/
def prepareCache (env : PkgEnv) (spec : PackageSpec) (st : PkgState) :
    Except PackageError (List String) × PkgState :=
  match env.cacheDir with
  | none => (.error (.notFound spec), st)
  | some cd =>
      let dir := cd ++ subdir spec
      if spec.ns = "preview" ∧ dir ∉ st.dirs then
        match download_package env spec dir st with
        | (.ok _, st1) =>
            if dir ∈ st1.dirs then (.ok dir, st1)
            else (.error (.notFound spec), st1)
        | (.error e, st1) => (.error e, st1)
      else
        if dir ∈ st.dirs then (.ok dir, st)
        else (.error (.notFound spec), st)

/-- Model of `prepare_package` from `src/package.rs`: return the package directory
from the per-user data directory if it already exists there, else go
through the cache-directory phase. -/
def prepare_package (env : PkgEnv) (spec : PackageSpec) (st : PkgState) :
    Except PackageError (List String) × PkgState :=
  match env.dataDir with
  | some dd =>
      let dir := dd ++ subdir spec
      if dir ∈ st.dirs then (.ok dir, st)
      else prepareCache env spec st
  | none => prepareCache env spec st

theorem prepare_package_to_cache (env : PkgEnv) (spec : PackageSpec)
    (st : PkgState)
    (hdata : ∀ dd, env.dataDir = some dd → dd ++ subdir spec ∉ st.dirs) :
    prepare_package env spec st = prepareCache env spec st := by
  unfold prepare_package
  cases hdd : env.dataDir with
  | none => rfl
  | some dd => simp [hdata dd hdd]

/-- C5: `prepare_package` maps an HTTP 404 to `NotFound`, any other
transport failure to `NetworkFailed`, and an unpack failure to
`MalformedArchive` with the partially-written target directory removed
before the error is returned; a namespace other than `preview` with no
local copy yields `NotFound` without any network call. -/
theorem prepare_package_error_mapping (env : PkgEnv) (spec : PackageSpec)
    (st : PkgState) (cd : List String)
    (hdata : ∀ dd, env.dataDir = some dd → dd ++ subdir spec ∉ st.dirs) :
    (env.cacheDir = some cd → spec.ns = "preview" →
      cd ++ subdir spec ∉ st.dirs →
      ((env.net (pkgUrl spec) = .status 404 →
        prepare_package env spec st =
          (.error (.notFound spec), ⟨st.dirs, st.netCalls + 1⟩)) ∧
      (∀ code, env.net (pkgUrl spec) = .status code → code ≠ 404 →
        (prepare_package env spec st).1 = .error .networkFailed) ∧
      (env.net (pkgUrl spec) = .transportErr →
        (prepare_package env spec st).1 = .error .networkFailed) ∧
      (∀ data, env.net (pkgUrl spec) = .success data →
        env.unpackOk data = false →
        (prepare_package env spec st).1 = .error .malformedArchive ∧
        cd ++ subdir spec ∉ (prepare_package env spec st).2.dirs))) ∧
    (spec.ns ≠ "preview" →
      (∀ cd2, env.cacheDir = some cd2 → cd2 ++ subdir spec ∉ st.dirs) →
      (prepare_package env spec st).1 = .error (.notFound spec) ∧
      (prepare_package env spec st).2.netCalls = st.netCalls) := by
  have hpc := prepare_package_to_cache env spec st hdata
  constructor
  · intro hc hns hmem
    refine ⟨?_, ?_, ?_, ?_⟩
    · intro hnet
      rw [hpc]
      simp only [prepareCache, hc]
      rw [if_pos ⟨hns, hmem⟩]
      simp [download_package, hnet]
    · intro code hnet hcode
      rw [hpc]
      simp only [prepareCache, hc]
      rw [if_pos ⟨hns, hmem⟩]
      simp [download_package, hnet, hcode]
    · intro hnet
      rw [hpc]
      simp only [prepareCache, hc]
      rw [if_pos ⟨hns, hmem⟩]
      simp [download_package, hnet]
    · intro data hnet hup
      rw [hpc]
      simp only [prepareCache, hc]
      rw [if_pos ⟨hns, hmem⟩]
      simp [download_package, hnet, hup, List.mem_filter]
  · intro hns hc2
    rw [hpc]
    cases hc : env.cacheDir with
    | none => simp [prepareCache, hc]
    | some cd2 =>
      simp only [prepareCache, hc]
      rw [if_neg (by simp [hns])]
      rw [if_neg (hc2 cd2 hc)]
      exact ⟨rfl, rfl⟩

/-- A preview-namespace package spec used in concrete scenarios. -/
def previewSpec : PackageSpec := ⟨"preview", "pkg", "1.0.0"⟩

/-- A non-preview package spec used in concrete scenarios. -/
def localSpec : PackageSpec := ⟨"local", "pkg", "1.0.0"⟩

/-- Empty package-resolver state: nothing on disk, no network calls. -/
def emptyPkgState : PkgState := ⟨[], 0⟩

/-- Environment whose network answers HTTP 404. -/
def env404 : PkgEnv := ⟨none, some ["cache"], fun _ => .status 404,
  fun _ => true⟩

/-- Environment whose network answers HTTP 500. -/
def env500 : PkgEnv := ⟨none, some ["cache"], fun _ => .status 500,
  fun _ => true⟩

/-- Environment whose network fails at the transport level. -/
def envDown : PkgEnv := ⟨none, some ["cache"], fun _ => .transportErr,
  fun _ => true⟩

/-- Environment that serves an archive which fails to unpack. -/
def envMal : PkgEnv := ⟨none, some ["cache"], fun _ => .success [1],
  fun _ => false⟩

theorem prepare_package_error_mapping_witness :
    prepare_package env404 previewSpec emptyPkgState =
      (.error (.notFound previewSpec), ⟨[], 1⟩) ∧
    (prepare_package env500 previewSpec emptyPkgState).1 =
      .error .networkFailed ∧
    (prepare_package envDown previewSpec emptyPkgState).1 =
      .error .networkFailed ∧
    (prepare_package envMal previewSpec emptyPkgState).1 =
      .error .malformedArchive ∧
    ["cache"] ++ subdir previewSpec ∉
      (prepare_package envMal previewSpec emptyPkgState).2.dirs ∧
    (prepare_package envDown localSpec emptyPkgState).1 =
      .error (.notFound localSpec) ∧
    (prepare_package envDown localSpec emptyPkgState).2.netCalls = 0 := by
  have h404 := (prepare_package_error_mapping env404 previewSpec
    emptyPkgState ["cache"] (fun dd h => nomatch h)).1 rfl rfl
    (by simp [emptyPkgState])
  have h500 := (prepare_package_error_mapping env500 previewSpec
    emptyPkgState ["cache"] (fun dd h => nomatch h)).1 rfl rfl
    (by simp [emptyPkgState])
  have hdown := (prepare_package_error_mapping envDown previewSpec
    emptyPkgState ["cache"] (fun dd h => nomatch h)).1 rfl rfl
    (by simp [emptyPkgState])
  have hmal := (prepare_package_error_mapping envMal previewSpec
    emptyPkgState ["cache"] (fun dd h => nomatch h)).1 rfl rfl
    (by simp [emptyPkgState])
  have hlocal := (prepare_package_error_mapping envDown localSpec
    emptyPkgState ["cache"] (fun dd h => nomatch h)).2
    (by simp [localSpec]) (fun cd2 h => by simp [emptyPkgState])
  refine ⟨h404.1 rfl, h500.2.1 500 rfl (by decide), hdown.2.2.1 rfl,
    (hmal.2.2.2 [1] rfl rfl).1, (hmal.2.2.2 [1] rfl rfl).2, hlocal.1,
    hlocal.2⟩
